import Mathlib

/-!
Verification of the arctyk_red pipeline modules (arctyk_file_exec.py,
arctyk_sql_exec.py, arctyk_common.py) via a shallow embedding in Lean.

Python strings are modelled as Lean `String` (a list of characters); the
Python library functions the source relies on (str.replace with a
one-character pattern, str.rstrip / str.strip over ASCII whitespace,
str.upper / str.lower over ASCII letters, str.split, str.isdigit,
os.path.splitext, os.path.join over the forward-slash paths the code
produces, format spec "{n:,}") are given executable Lean models below.
An uncaught Python exception is modelled by `Except.error`; filesystem
and clock effects are threaded explicitly as state or as observation
sequences.
-/

namespace Py

/-- Model of the whitespace set stripped by Python's str.rstrip/str.strip
(the ASCII whitespace characters). -/
def isSpaceChar (c : Char) : Bool :=
  c = ' ' || c = '\t' || c = '\n' || c = '\r' || c = '\x0b' || c = '\x0c'

/-- Model of Python str.rstrip(). -/
def rstrip (s : String) : String :=
  ⟨(s.data.reverse.dropWhile isSpaceChar).reverse⟩

/-- Model of Python str.strip(). -/
def strip (s : String) : String :=
  ⟨((s.data.dropWhile isSpaceChar).reverse.dropWhile isSpaceChar).reverse⟩

/-- Model of Python str.replace(old, new) for a one-character `old` pattern
(the only form the source uses in the functions embedded here). -/
def replaceChar (s : String) (old : Char) (new : String) : String :=
  ⟨(s.data.map (fun a => if a = old then new.data else [a])).flatten⟩

/-- ASCII uppercase of one character. -/
def upperChar (c : Char) : Char :=
  if 'a' ≤ c ∧ c ≤ 'z' then Char.ofNat (c.toNat - 32) else c

/-- ASCII lowercase of one character. -/
def lowerChar (c : Char) : Char :=
  if 'A' ≤ c ∧ c ≤ 'Z' then Char.ofNat (c.toNat + 32) else c

/-- Model of Python str.upper() over ASCII letters. -/
def upper (s : String) : String := ⟨s.data.map upperChar⟩

/-- Model of Python str.lower() over ASCII letters. -/
def lower (s : String) : String := ⟨s.data.map lowerChar⟩

/-- Splitting a character list on a separator character:
[a, sep, sep, b] becomes [[a], [], [b]] and [] becomes [[]]. -/
def splitChar (sep : Char) : List Char → List (List Char)
  | [] => [[]]
  | a :: rest =>
    let r := splitChar sep rest
    if a = sep then [] :: r
    else
      match r with
      | h :: t => (a :: h) :: t
      | [] => [[a]]

/-- Model of Python str.split(sep) with a one-character separator (the only
form the source uses): "a,,b".split(",") = ["a", "", "b"],
"".split(",") = [""]. -/
def split (s : String) (sep : Char) : List String :=
  (splitChar sep s.data).map String.mk

/-- Model of Python str.isdigit() over ASCII digits: true iff the string is
nonempty and all characters are digits. -/
def isdigit (s : String) : Bool := !s.data.isEmpty && s.data.all Char.isDigit

/-- Model of os.path.join for the forward-slash relative layouts the code
produces (second component not absolute). -/
def pathJoin (a b : String) : String :=
  if a.data = [] then b
  else if a.data.getLast? = some '/' then a ++ b
  else a ++ "/" ++ b

/-- str.join over a list of strings with a separator. -/
def joinSep (sep : String) : List String → String
  | [] => ""
  | [x] => x
  | x :: y :: rest => x ++ sep ++ joinSep sep (y :: rest)

/-- Index of the last occurrence of `c` in `l`, if any. -/
def lastIdxOf (c : Char) : List Char → Option Nat
  | [] => none
  | a :: rest =>
    match lastIdxOf c rest with
    | some j => some (j + 1)
    | none => if a = c then some 0 else none

/-- Model of os.path.splitext: the extension starts at the last dot of the
basename, provided some earlier character of the basename is not a dot
(so ".bashrc" has no extension). Mirrors CPython's genericpath._splitext. -/
def splitext (s : String) : String × String :=
  let l := s.data
  let sepI : Int := ((lastIdxOf '/' l).map Int.ofNat).getD (-1)
  match lastIdxOf '.' l with
  | none => (s, "")
  | some d =>
    if sepI < (d : Int) &&
        (List.range d).any (fun i => decide (sepI < (i : Int)) && (l.getD i ' ' != '.')) then
      (⟨l.take d⟩, ⟨l.drop d⟩)
    else (s, "")

/-- Groups of three consecutive elements (last group possibly shorter). -/
def groupsOf3 : List Char → List (List Char)
  | [] => []
  | [a] => [[a]]
  | [a, b] => [[a, b]]
  | a :: b :: c :: rest => [a, b, c] :: groupsOf3 rest

/-- Model of Python's format spec "{n:,}" for a natural number: decimal
digits grouped in threes from the right, separated by commas. -/
def commaFmt (n : Nat) : String :=
  let ds := (Nat.repr n).data
  joinSep "," (((groupsOf3 ds.reverse).map List.reverse).reverse.map
    fun g => ⟨g⟩)

end Py

namespace ArctykFileExec

/-- arctyk_file_exec.fix_path: converts a windows path to a python path,
replacing backslashes with forward slashes and stripping trailing blanks. -/
def fix_path (directory : String) : String :=
  Py.rstrip (Py.replaceChar directory '\\' "/")

end ArctykFileExec

namespace ArctykSqlExec

/-- arctyk_sql_exec.fix_path: the identically-named copy in the sql-exec
module, with the same body. -/
def fix_path (directory : String) : String :=
  Py.rstrip (Py.replaceChar directory '\\' "/")

end ArctykSqlExec

section FixPathLemmas

lemma replaceChar_data (s : String) (c : Char) (t : String) :
    (Py.replaceChar s c t).data =
      (s.data.map (fun a => if a = c then t.data else [a])).flatten := rfl

/-- Characters of the backslash-replacement are never a backslash. -/
lemma replaceChar_no_backslash (s : String) :
    '\\' ∉ (Py.replaceChar s '\\' "/").data := by
  intro hmem
  rw [replaceChar_data] at hmem
  simp only [List.mem_flatten, List.mem_map] at hmem
  obtain ⟨l, ⟨a, _, rfl⟩, hl⟩ := hmem
  by_cases h : a = '\\' <;> simp [h] at hl
  exact h hl.symm

lemma flatten_map_eq_of_not_mem (c : Char) (t : List Char) (l : List Char)
    (h : c ∉ l) :
    (l.map (fun a => if a = c then t else [a])).flatten = l := by
  induction l with
  | nil => rfl
  | cons a u ih =>
    simp only [List.mem_cons, not_or] at h
    simp only [List.map_cons, List.flatten_cons, if_neg (Ne.symm h.1)]
    rw [ih h.2]
    rfl

/-- Replacing a character absent from the string is the identity. -/
lemma replaceChar_eq_of_not_mem (s : String) (c : Char) (t : String)
    (h : c ∉ s.data) : Py.replaceChar s c t = s := by
  cases s with
  | mk l => exact congrArg String.mk (flatten_map_eq_of_not_mem c t.data l h)

lemma dropWhile_head_not (p : Char → Bool) (l : List Char) (c : Char)
    (h : (l.dropWhile p).head? = some c) : p c = false := by
  induction l with
  | nil => simp [List.dropWhile] at h
  | cons a t ih =>
    by_cases ha : p a
    · simp only [List.dropWhile, ha] at h
      exact ih h
    · simp only [List.dropWhile, ha, List.head?] at h
      cases h
      simpa using ha

lemma dropWhile_dropWhile (p : Char → Bool) (l : List Char) :
    (l.dropWhile p).dropWhile p = l.dropWhile p := by
  induction l with
  | nil => simp
  | cons a t ih =>
    by_cases ha : p a
    · simp [List.dropWhile, ha, ih]
    · simp [List.dropWhile, ha]

lemma mem_of_mem_dropWhile (p : Char → Bool) (l : List Char) (c : Char)
    (h : c ∈ l.dropWhile p) : c ∈ l := by
  induction l with
  | nil => simp [List.dropWhile] at h
  | cons a t ih =>
    by_cases ha : p a
    · simp only [List.dropWhile, ha] at h
      exact List.mem_cons_of_mem a (ih h)
    · simpa [List.dropWhile, ha] using h

lemma rstrip_no_trailing_space (s : String) (c : Char)
    (h : (Py.rstrip s).data.getLast? = some c) : Py.isSpaceChar c = false := by
  simp only [Py.rstrip] at h
  rw [List.getLast?_reverse] at h
  exact dropWhile_head_not _ _ _ h

lemma rstrip_rstrip (s : String) : Py.rstrip (Py.rstrip s) = Py.rstrip s := by
  simp [Py.rstrip, dropWhile_dropWhile]

lemma mem_rstrip (s : String) (c : Char) (h : c ∈ (Py.rstrip s).data) :
    c ∈ s.data := by
  simp only [Py.rstrip, List.mem_reverse] at h
  have := mem_of_mem_dropWhile _ _ _ h
  rwa [List.mem_reverse] at this

end FixPathLemmas

/-- C9: fix_path is idempotent and normalizing: the output has no
backslash, no trailing whitespace, fix_path of its own output is that
output, and the two identically-named copies in arctyk_file_exec and
arctyk_sql_exec agree on every input. -/
theorem fix_path_normalizing (s : String) :
    ('\\' ∉ (ArctykFileExec.fix_path s).data) ∧
    (∀ c, (ArctykFileExec.fix_path s).data.getLast? = some c →
      Py.isSpaceChar c = false) ∧
    ArctykFileExec.fix_path (ArctykFileExec.fix_path s) =
      ArctykFileExec.fix_path s ∧
    ArctykSqlExec.fix_path s = ArctykFileExec.fix_path s := by
  refine ⟨?_, ?_, ?_, rfl⟩
  · intro h
    exact replaceChar_no_backslash s (mem_rstrip _ _ h)
  · intro c h
    exact rstrip_no_trailing_space _ _ h
  · have hno : '\\' ∉ (ArctykFileExec.fix_path s).data := fun h =>
      replaceChar_no_backslash s (mem_rstrip _ _ h)
    show Py.rstrip (Py.replaceChar (ArctykFileExec.fix_path s) '\\' "/") =
      ArctykFileExec.fix_path s
    rw [replaceChar_eq_of_not_mem _ _ _ hno]
    exact rstrip_rstrip _

/-- Witness for C9: evaluation at the concrete input "C:\tmp\dir " with a
backslash and a trailing blank. -/
theorem fix_path_normalizing_witness :
    ArctykFileExec.fix_path "C:\\tmp\\dir " = "C:/tmp/dir" ∧
    Py.isSpaceChar 'r' = false :=
  ⟨by decide, (fix_path_normalizing "C:\\tmp\\dir ").2.1 'r' (by decide)⟩

namespace ArctykFileExec

/-- set_wait_file: if a trigger file pattern is given it becomes the wait
filename, otherwise the source file pattern does; the result is split into
root and extension with os.path.splitext. -/
def set_wait_file (trigger_file_pattern file_pattern source_path : String) :
    String × String :=
  let wait_filename :=
    if trigger_file_pattern.length > 0 then trigger_file_pattern
    else file_pattern
  Py.splitext wait_filename

/-- Observable actions of wait_for_file on its environment: a find_files
existence check of the awaited file, or a time.sleep(5) call. -/
inductive WaitEvent where
  | findCheck
  | sleep
deriving DecidableEq, Repr

/-- Environment of one wait_for_file run: whether os.path.exists holds of
the (already fix_path-normalized) source path, the result of the initial
find_files call, and, for each polling-loop iteration, the rounded elapsed
seconds reported by the clock together with the find_files result of that
iteration. -/
structure WaitEnv where
  dirExists : String → Bool
  found0 : Bool
  obs : List (Int × Bool)

/-- Message of the timeout branch of wait_for_file. -/
def timeoutMsg (wait_response : String) : String :=
  "Checking for file Exist is True and Action when Wait Limit Reached is specified as "
    ++ wait_response ++ "."

/-- The timeout dispatch at the end of wait_for_file's polling loop. -/
def timeoutOutcome (wait_response : String) : String × String :=
  if wait_response = "Error" then ("-2", timeoutMsg wait_response)
  else if wait_response = "Fatal Error" then ("-3", timeoutMsg wait_response)
  else if wait_response = "Warning" then ("-1", timeoutMsg wait_response)
  else ("-3", "Invalid wait_response value of " ++ wait_response
    ++ " was specified and we reached the wait time limit")

/-- The polling loop of wait_for_file: each iteration reads the rounded
elapsed time; while it is below wait_time the file is checked (returning
Success when found) and the loop sleeps 5 seconds; once it is not below
wait_time the timeout dispatch decides the outcome. `none` means the
observation sequence ended before the run returned. -/
def waitLoop (wait_time : Int) (wait_response wait_filename : String) :
    List (Int × Bool) → Option (String × String) × List WaitEvent
  | [] => (none, [])
  | (elapsed, found) :: rest =>
    if elapsed < wait_time then
      if found then
        (some ("1", "File " ++ wait_filename ++ " was found."),
          [WaitEvent.findCheck])
      else
        let r := waitLoop wait_time wait_response wait_filename rest
        (r.1, WaitEvent.findCheck :: WaitEvent.sleep :: r.2)
    else (some (timeoutOutcome wait_response), [])

/-- wait_for_file: fix the source path; fail fatally if it does not exist;
otherwise compute the wait filename, check once, and (unless check_exist
is the string "false") poll until the file appears or the wait time
elapses. Returns the (return code, message) outcome paired with the
sequence of filesystem checks and sleeps performed. -/
def wait_for_file (check_exist wait_response source_path : String)
    (wait_time : Int) (trigger_file_pattern file_pattern : String)
    (env : WaitEnv) : Option (String × String) × List WaitEvent :=
  let sp := fix_path source_path
  if env.dirExists sp = false then
    (some ("-3", "Folder " ++ sp ++ " was not found."), [])
  else
    let wf := set_wait_file trigger_file_pattern file_pattern sp
    if env.found0 then
      (some ("1", "File " ++ wf.1 ++ " was found."), [WaitEvent.findCheck])
    else if check_exist = "false" then
      (some ("-3", "File " ++ wf.1 ++ wf.2
         ++ " was not found with check_exist = false in " ++ sp ++ "."),
        [WaitEvent.findCheck])
    else
      let r := waitLoop wait_time wait_response wf.1 env.obs
      (r.1, WaitEvent.findCheck :: r.2)

end ArctykFileExec

section WaitLemmas

open ArctykFileExec

/-- If the file is never found and some iteration reaches the wait limit,
the loop ends in the timeout dispatch. -/
lemma waitLoop_timeout (wait_time : Int) (wait_response wait_filename : String)
    (obs : List (Int × Bool))
    (hnf : ∀ p ∈ obs, p.2 = false)
    (hto : ∃ p ∈ obs, ¬ p.1 < wait_time) :
    (waitLoop wait_time wait_response wait_filename obs).1 =
      some (timeoutOutcome wait_response) := by
  induction obs with
  | nil => simp at hto
  | cons p rest ih =>
    obtain ⟨elapsed, found⟩ := p
    have hf' : found = false := by
      have := hnf (elapsed, found) (List.mem_cons_self _ _)
      simpa using this
    by_cases he : elapsed < wait_time
    · have : (waitLoop wait_time wait_response wait_filename rest).1 =
          some (timeoutOutcome wait_response) := by
        apply ih
        · intro q hq
          exact hnf q (List.mem_cons_of_mem _ hq)
        · rcases hto with ⟨q, hq, hqe⟩
          rcases List.mem_cons.mp hq with h | h
          · exfalso
            apply hqe
            rw [h]
            exact he
          · exact ⟨q, h, hqe⟩
      simp [waitLoop, he, hf']
      exact this
    · simp [waitLoop, he]

end WaitLemmas

/-- C3: for every timeout-policy value outside the recognized set
{"Error", "Fatal Error", "Warning"}, once the maximum wait time elapses
without the file appearing, wait_for_file resolves to FatalError ("-3")
with a message stating the wait_response value was invalid. -/
theorem wait_for_file_invalid_policy_fatal
    (check_exist wait_response source_path : String) (wait_time : Int)
    (trigger_file_pattern file_pattern : String) (env : ArctykFileExec.WaitEnv)
    (hdir : env.dirExists (ArctykFileExec.fix_path source_path) = true)
    (h0 : env.found0 = false)
    (hce : check_exist ≠ "false")
    (hnf : ∀ p ∈ env.obs, p.2 = false)
    (hto : ∃ p ∈ env.obs, ¬ p.1 < wait_time)
    (hpol : wait_response ∉ (["Error", "Fatal Error", "Warning"] : List String)) :
    (ArctykFileExec.wait_for_file check_exist wait_response source_path
        wait_time trigger_file_pattern file_pattern env).1 =
      some ("-3", "Invalid wait_response value of " ++ wait_response
        ++ " was specified and we reached the wait time limit") := by
  simp only [List.mem_cons, not_or] at hpol
  obtain ⟨hp1, hp2, hp3, _⟩ := hpol
  have hloop := waitLoop_timeout wait_time wait_response
    (ArctykFileExec.set_wait_file trigger_file_pattern file_pattern
      (ArctykFileExec.fix_path source_path)).1 env.obs hnf hto
  simp only [ArctykFileExec.wait_for_file, hdir, h0, Bool.false_eq_true,
    if_false, if_neg hce]
  simp only [ArctykFileExec.timeoutOutcome, if_neg hp1, if_neg hp2,
    if_neg hp3] at hloop
  simpa using hloop

/-- Witness for C3: policy "Ignore" on a run whose directory exists, whose
file never appears, and whose second loop iteration reaches the 10-second
limit. -/
theorem wait_for_file_invalid_policy_fatal_witness :
    (ArctykFileExec.wait_for_file "true" "Ignore" "C:\\in" 10 "" "f.txt"
        ⟨fun _ => true, false, [(0, false), (10, false)]⟩).1 =
      some ("-3",
        "Invalid wait_response value of Ignore was specified and we reached the wait time limit") :=
  wait_for_file_invalid_policy_fatal "true" "Ignore" "C:\\in" 10 "" "f.txt"
    ⟨fun _ => true, false, [(0, false), (10, false)]⟩
    (by decide) (by decide) (by decide)
    (by intro p hp; simp at hp; rcases hp with h | h <;> simp [h])
    ⟨(10, false), by decide⟩
    (by decide)

/-- C4: for every source directory that does not exist, wait_for_file
returns FatalError ("-3") immediately: no file-existence check and no
sleep is performed, and the outcome does not depend on wait_time,
check_exist, wait_response or the file patterns. -/
theorem wait_for_file_missing_dir_fatal
    (check_exist wait_response source_path : String) (wait_time : Int)
    (trigger_file_pattern file_pattern : String) (env : ArctykFileExec.WaitEnv)
    (hdir : env.dirExists (ArctykFileExec.fix_path source_path) = false) :
    ArctykFileExec.wait_for_file check_exist wait_response source_path
        wait_time trigger_file_pattern file_pattern env =
      (some ("-3", "Folder " ++ ArctykFileExec.fix_path source_path
        ++ " was not found."), []) := by
  simp [ArctykFileExec.wait_for_file, hdir]

/-- Witness for C4: a missing directory with a waiting file present and a
generous wait time still fails immediately with no events. -/
theorem wait_for_file_missing_dir_fatal_witness :
    ArctykFileExec.wait_for_file "true" "Error" "C:\\gone" 300 "t.trg" "f.txt"
        ⟨fun _ => false, true, [(0, true)]⟩ =
      (some ("-3", "Folder C:/gone was not found."), []) :=
  wait_for_file_missing_dir_fatal "true" "Error" "C:\\gone" 300 "t.trg" "f.txt"
    ⟨fun _ => false, true, [(0, true)]⟩ (by decide)

namespace ArctykCommon

/-- The job-control environment visible to RepoExec.ExitHandler: the
WSL_JOB_KEY and WSL_JOB_NAME environment variables, each possibly absent. -/
structure ExitEnv where
  wsl_job_key : Option String
  wsl_job_name : Option String

/-- The job key after the KeyError default: "0" when absent. -/
def resolvedJobKey (e : ExitEnv) : String := e.wsl_job_key.getD "0"

/-- The job name after the KeyError default: "Develop" when absent. -/
def resolvedJobName (e : ExitEnv) : String := e.wsl_job_name.getD "Develop"

/-- RepoExec.ExitHandler, modelled on the numeric severity codes the spec
names (the source compares result_code == 1): returns the value passed to
sys.exit together with the lines printed.  In the development branch the
code prints str(result_code) then the message; the other branches print
the code and the message as well. -/
def ExitHandler (env : ExitEnv) (result_code : Int) (result_message : String) :
    Int × List String :=
  if resolvedJobKey env = "0" ∧ resolvedJobName env = "Develop" then
    (0, [toString result_code, result_message])
  else if result_code = 1 then
    (0, [toString result_code, result_message])
  else
    (result_code, [toString result_code, result_message])

end ArctykCommon

/-- C2: the exit handler maps the final return code to the process exit
status: Success (numeric value 1) exits 0; a non-success code exits with
the code's own numeric value; and when both WSL_JOB_KEY and WSL_JOB_NAME
are absent (a development/interactive invocation) it exits 0 regardless
of the code, while still printing the code and the message. -/
theorem exit_handler_contract (env : ArctykCommon.ExitEnv) (rc : Int)
    (msg : String) :
    (env.wsl_job_key = none ∧ env.wsl_job_name = none →
      ArctykCommon.ExitHandler env rc msg =
        (0, [toString rc, msg])) ∧
    (¬ (ArctykCommon.resolvedJobKey env = "0" ∧
        ArctykCommon.resolvedJobName env = "Develop") →
      (rc = 1 → (ArctykCommon.ExitHandler env rc msg).1 = 0) ∧
      (rc ≠ 1 → (ArctykCommon.ExitHandler env rc msg).1 = rc)) := by
  constructor
  · rintro ⟨hk, hn⟩
    simp [ArctykCommon.ExitHandler, ArctykCommon.resolvedJobKey,
      ArctykCommon.resolvedJobName, hk, hn]
  · intro hdev
    constructor
    · intro h1
      simp [ArctykCommon.ExitHandler, hdev, h1]
    · intro h1
      simp [ArctykCommon.ExitHandler, hdev, h1]

/-- Witness for C2: under a real job context (key "42", name "JobA"), the
Success code 1 exits 0 and the Error code -2 exits -2; with no job
context, -3 still exits 0. -/
theorem exit_handler_contract_witness :
    (ArctykCommon.ExitHandler ⟨some "42", some "JobA"⟩ 1 "ok").1 = 0 ∧
    (ArctykCommon.ExitHandler ⟨some "42", some "JobA"⟩ (-2) "bad").1 = -2 ∧
    ArctykCommon.ExitHandler ⟨none, none⟩ (-3) "dev" =
      (0, ["-3", "dev"]) := by
  refine ⟨?_, ?_, ?_⟩
  · exact ((exit_handler_contract ⟨some "42", some "JobA"⟩ 1 "ok").2
      (by decide)).1 rfl
  · exact ((exit_handler_contract ⟨some "42", some "JobA"⟩ (-2) "bad").2
      (by decide)).2 (by decide)
  · exact (exit_handler_contract ⟨none, none⟩ (-3) "dev").1 ⟨rfl, rfl⟩

namespace ArctykSqlExec

/-- The filesystem visible to arctyk_sql_exec.delete_file, as the set of
existing file paths. -/
def pyExists (fs : List String) (p : String) : Bool := fs.contains p

/-- arctyk_sql_exec.delete_file: removes the file when it exists and logs
the deletion; when it does not exist, logs the absence and returns
normally.  Returns the new filesystem and the log line. -/
def delete_file (fs : List String) (filename : String) : List String × String :=
  if pyExists fs filename then
    (fs.filter (· ≠ filename), "Deleted temporary file: " ++ filename)
  else
    (fs, "The Delete_file function did not find temporary file: " ++ filename)

/-- Python keyword-argument binding for a call delete_file(kw=value): the
function's only parameter is named "filename", so any other keyword raises
TypeError. -/
def callDeleteFileKw (kw : String) (fs : List String) (value : String) :
    Except String (List String × String) :=
  if kw = "filename" then Except.ok (delete_file fs value)
  else Except.error
    ("TypeError: delete_file() got an unexpected keyword argument " ++ kw)

/-- The cleanup step at the end of extract_odbc_dba, reached after the
parquet conversion succeeded: the source invokes
delete_file(sql_filename=sql_filename) and then
delete_file(sql_filename=data_filename) - both with the keyword
sql_filename. -/
def extract_odbc_dba_cleanup (fs : List String) (work_dir load_table : String) :
    Except String (List String) := do
  let sql_filename := Py.pathJoin work_dir load_table ++ ".sql_tmp"
  let data_filename := Py.pathJoin work_dir load_table ++ ".dat"
  let r1 ← callDeleteFileKw "sql_filename" fs sql_filename
  let r2 ← callDeleteFileKw "sql_filename" r1.1 data_filename
  pure r2.1

end ArctykSqlExec

/-- C6 (code bug): delete_file itself is total and idempotent - deleting an
absent file logs the absence and returns the filesystem unchanged - but the
cleanup calls in extract_odbc_dba pass the keyword sql_filename to a
parameter named filename, so for every filesystem and every work
directory/table the cleanup raises TypeError and neither temporary file is
deleted. -/
theorem extract_odbc_dba_cleanup_type_error
    (fs : List String) (work_dir load_table : String) :
    (∀ g f, ArctykSqlExec.pyExists g f = false →
      ArctykSqlExec.delete_file g f =
        (g, "The Delete_file function did not find temporary file: " ++ f)) ∧
    ArctykSqlExec.extract_odbc_dba_cleanup fs work_dir load_table =
      Except.error
        "TypeError: delete_file() got an unexpected keyword argument sql_filename" := by
  constructor
  · intro g f h
    simp [ArctykSqlExec.delete_file, h]
  · simp [ArctykSqlExec.extract_odbc_dba_cleanup,
      ArctykSqlExec.callDeleteFileKw, Bind.bind, Except.bind]

/-- Witness for C6: the concrete failing run with work_dir "C:/work" and
load table "T" holding both temporary files. -/
theorem extract_odbc_dba_cleanup_type_error_witness :
    ArctykSqlExec.delete_file [] "C:/work/T.sql_tmp" =
      ([], "The Delete_file function did not find temporary file: C:/work/T.sql_tmp") ∧
    ArctykSqlExec.extract_odbc_dba_cleanup
        ["C:/work/T.sql_tmp", "C:/work/T.dat"] "C:/work" "T" =
      Except.error
        "TypeError: delete_file() got an unexpected keyword argument sql_filename" :=
  ⟨(extract_odbc_dba_cleanup_type_error [] "x" "y").1 [] "C:/work/T.sql_tmp"
      (by decide),
    (extract_odbc_dba_cleanup_type_error
      ["C:/work/T.sql_tmp", "C:/work/T.dat"] "C:/work" "T").2⟩

namespace ArctykFileExec

/-- The file operation performed by one compress_file call: a gzip
byte-stream compression to a path, a delimited-text read (with the given
field separator, quote character and header flag) rewritten as parquet to
a path, or no file operation at all. -/
inductive CompressAction where
  | gzipTo (outPath : String)
  | parquetTo (inPath : String) (separator : Char) (quote : Char)
      (hasHeader : Bool) (outPath : String)
  | noop
deriving DecidableEq, Repr

/-- compress_file: dispatches on compress_method.lower(). The gzip branch
streams full_file_path into full_file_path + ".gz"; the parquet branch
reads full_file_path as delimited text with separator "," and quote
character '"' (the separator and quote_char parameters are not used) and
writes <root>.parquet next to the input; any other method does nothing. -/
def compress_file (filename source_path has_header separator quote_char
    compress_method : String) : CompressAction :=
  let full_file_path := Py.pathJoin source_path filename
  let has_header_bool := Py.lower has_header = "true"
  if Py.lower compress_method = "gzip" then
    CompressAction.gzipTo (full_file_path ++ ".gz")
  else if Py.lower compress_method = "parquet" then
    CompressAction.parquetTo full_file_path ',' '\"' has_header_bool
      (Py.pathJoin source_path ((Py.splitext filename).1 ++ ".parquet"))
  else
    CompressAction.noop

/-- The sentinel separator chr(18) passed to compress_file by
compress_files_concurrently. -/
def sentinelSeparator : Char := Char.ofNat 18

/-- The sentinel quote character chr(17) passed to compress_file by
compress_files_concurrently. -/
def sentinelQuote : Char := Char.ofNat 17

end ArctykFileExec

/-- C5 counterexample: at the concrete call compress_file("data.csv", "d",
"true", chr(18), chr(17), "parquet") - the arguments
compress_files_concurrently supplies - the parquet branch parses with the
comma field delimiter and the double-quote quote character, not with the
sentinel characters chr(18) and chr(17) the claim states. -/
theorem compress_file_sentinels_unused :
    ArctykFileExec.compress_file "data.csv" "d" "true"
        (String.mk [ArctykFileExec.sentinelSeparator])
        (String.mk [ArctykFileExec.sentinelQuote]) "parquet" =
      ArctykFileExec.CompressAction.parquetTo "d/data.csv" ',' '\"' true
        "d/data.parquet" ∧
    (',' ≠ ArctykFileExec.sentinelSeparator ∧
      '\"' ≠ ArctykFileExec.sentinelQuote) := by
  constructor
  · decide
  · decide

/-- C5 amended: compress_file's per-file behaviour is determined solely by
the method argument, compared case-insensitively: "gzip" writes
byte-stream-compressed output to <name>.gz next to the input; "parquet"
parses the input as comma-delimited, double-quote-quoted text - ignoring
the separator and quote_char parameters (the chr(18)/chr(17) sentinels its
caller passes) - and writes <name>.parquet next to the input; any other
method value performs no file operation. -/
theorem compress_file_dispatch (filename source_path has_header separator
    quote_char compress_method : String) :
    (Py.lower compress_method = "gzip" →
      ArctykFileExec.compress_file filename source_path has_header separator
          quote_char compress_method =
        ArctykFileExec.CompressAction.gzipTo
          (Py.pathJoin source_path filename ++ ".gz")) ∧
    (Py.lower compress_method = "parquet" →
      ArctykFileExec.compress_file filename source_path has_header separator
          quote_char compress_method =
        ArctykFileExec.CompressAction.parquetTo
          (Py.pathJoin source_path filename) ',' '\"'
          (Py.lower has_header = "true")
          (Py.pathJoin source_path ((Py.splitext filename).1 ++ ".parquet"))) ∧
    (Py.lower compress_method ≠ "gzip" → Py.lower compress_method ≠ "parquet" →
      ArctykFileExec.compress_file filename source_path has_header separator
          quote_char compress_method =
        ArctykFileExec.CompressAction.noop) := by
  refine ⟨?_, ?_, ?_⟩
  · intro h
    simp [ArctykFileExec.compress_file, h]
  · intro h
    have hne : Py.lower compress_method ≠ "gzip" := by
      rw [h]
      decide
    simp [ArctykFileExec.compress_file, hne, h]
  · intro h1 h2
    simp [ArctykFileExec.compress_file, h1, h2]

/-- Witness for C5 amended: the three dispatch branches at concrete
method strings "GZip", "Parquet" and "none". -/
theorem compress_file_dispatch_witness :
    ArctykFileExec.compress_file "f.csv" "d" "false" "," "\"" "GZip" =
      ArctykFileExec.CompressAction.gzipTo "d/f.csv.gz" ∧
    ArctykFileExec.compress_file "f.csv" "d" "true" "," "\"" "Parquet" =
      ArctykFileExec.CompressAction.parquetTo "d/f.csv" ',' '\"' true
        "d/f.parquet" ∧
    ArctykFileExec.compress_file "f.csv" "d" "true" "," "\"" "none" =
      ArctykFileExec.CompressAction.noop := by
  refine ⟨?_, ?_, ?_⟩
  · have := (compress_file_dispatch "f.csv" "d" "false" "," "\"" "GZip").1
      (by decide)
    rw [this]
    decide
  · have := (compress_file_dispatch "f.csv" "d" "true" "," "\"" "Parquet").2.1
      (by decide)
    rw [this]
    decide
  · exact (compress_file_dispatch "f.csv" "d" "true" "," "\"" "none").2.2
      (by decide) (by decide)

namespace ArctykFileExec

/-- Model of Python range(0, stop, step) for a positive step: the
multiples of step below stop.  (Python raises ValueError on step 0; the
embedded claims only concern positive batch sizes.) -/
def pyRangeStep (stop step : Nat) : List Nat :=
  if step = 0 then [] else List.range' 0 ((stop + step - 1) / step) step

/-- The batching list comprehension of compress_files_in_folder:
[file_list[i : i + k] for i in range(0, len(file_list), k)]. -/
def pyBatches {α : Type} (l : List α) (k : Nat) : List (List α) :=
  (pyRangeStep l.length k).map (fun i => (l.drop i).take k)

/-- Model of Python int() applied to the nonnegative decimal strings
files_per_batch can hold. -/
def parseNat (s : String) : Option Nat :=
  if Py.isdigit s then
    some (s.data.foldl (fun n c => n * 10 + (c.toNat - 48)) 0)
  else none

/-- The batch-size computation of compress_files_in_folder: 1 when
files_per_batch is empty, int(files_per_batch) otherwise. -/
def files_per_batch_int (files_per_batch : String) : Option Nat :=
  if files_per_batch.data.length = 0 then some 1 else parseNat files_per_batch

end ArctykFileExec

section BatchLemmas

open ArctykFileExec

lemma pyBatches_nil {α : Type} (k : Nat) : pyBatches ([] : List α) k = [] := by
  rcases Nat.eq_zero_or_pos k with hk | hk
  · simp [pyBatches, pyRangeStep, hk]
  · have h1 : (k - 1) / k = 0 := Nat.div_eq_of_lt (by omega)
    simp [pyBatches, pyRangeStep, Nat.pos_iff_ne_zero.mp hk, h1]

lemma pyBatches_cons {α : Type} (l : List α) (k : Nat) (hk : 0 < k)
    (hl : l ≠ []) :
    pyBatches l k = l.take k :: pyBatches (l.drop k) k := by
  have hkne : k ≠ 0 := Nat.pos_iff_ne_zero.mp hk
  have hn : 0 < l.length := List.length_pos.mpr hl
  have hcount : (l.length + k - 1) / k = (l.length - 1) / k + 1 := by
    have h1 : l.length + k - 1 = (l.length - 1) + k := by omega
    rw [h1, Nat.add_div_right _ hk]
  have hcount' : ((l.drop k).length + k - 1) / k = (l.length - 1) / k := by
    rw [List.length_drop]
    rcases le_or_lt l.length k with h | h
    · have h1 : l.length - k = 0 := by omega
      rw [h1]
      have h2 : (0 + k - 1) / k = 0 := Nat.div_eq_of_lt (by omega)
      have h3 : (l.length - 1) / k = 0 := Nat.div_eq_of_lt (by omega)
      rw [h2, h3]
    · have h1 : l.length - k + k - 1 = (l.length - k - 1) + k := by omega
      rw [h1, Nat.add_div_right _ hk]
      have h2 : l.length - 1 = (l.length - k - 1) + k := by omega
      rw [h2, Nat.add_div_right _ hk]
  simp only [pyBatches, pyRangeStep, if_neg hkne, hcount, hcount']
  rw [List.range'_succ]
  simp only [List.map_cons, List.drop_zero]
  congr 1
  rw [Nat.zero_add]
  have hshift : List.range' k ((l.length - 1) / k) k =
      (List.range' 0 ((l.length - 1) / k) k).map (k + ·) := by
    have := List.map_add_range' k 0 ((l.length - 1) / k) k
    rw [Nat.add_zero] at this
    exact this.symm
  rw [hshift, List.map_map]
  refine List.map_congr_left ?_
  intro i _
  simp only [Function.comp]
  rw [List.drop_drop]

lemma pyBatches_flatten {α : Type} (k : Nat) (hk : 0 < k) (l : List α) :
    (pyBatches l k).flatten = l := by
  by_cases hl : l = []
  · rw [hl, pyBatches_nil]
    rfl
  · rw [pyBatches_cons l k hk hl, List.flatten_cons,
      pyBatches_flatten k hk (l.drop k)]
    exact List.take_append_drop k l
termination_by l.length
decreasing_by
  simp only [List.length_drop]
  have : 0 < l.length := List.length_pos.mpr hl
  omega

lemma pyBatches_sizes {α : Type} (k : Nat) (hk : 0 < k) (l : List α) :
    ∀ b ∈ pyBatches l k, b ≠ [] ∧ b.length ≤ k := by
  by_cases hl : l = []
  · rw [hl, pyBatches_nil]
    intro b hb
    simp at hb
  · rw [pyBatches_cons l k hk hl]
    intro b hb
    rcases List.mem_cons.mp hb with rfl | hb
    · constructor
      · rw [Ne, List.take_eq_nil_iff]
        push_neg
        exact ⟨Nat.pos_iff_ne_zero.mp hk, hl⟩
      · rw [List.length_take]
        exact Nat.min_le_left _ _
    · exact pyBatches_sizes k hk (l.drop k) b hb
termination_by l.length
decreasing_by
  simp only [List.length_drop]
  have : 0 < l.length := List.length_pos.mpr hl
  omega

lemma pyBatches_full_init {α : Type} (k : Nat) (hk : 0 < k) (l : List α) :
    ∀ b ∈ (pyBatches l k).dropLast, b.length = k := by
  by_cases hl : l = []
  · rw [hl, pyBatches_nil]
    intro b hb
    simp at hb
  · rw [pyBatches_cons l k hk hl]
    by_cases hd : l.drop k = []
    · rw [hd, pyBatches_nil]
      intro b hb
      simp at hb
    · rw [pyBatches_cons (l.drop k) k hk hd]
      intro b hb
      rw [List.dropLast_cons₂] at hb
      rcases List.mem_cons.mp hb with rfl | hb
      · have hlen : k ≤ l.length := by
          by_contra hcon
          push_neg at hcon
          exact hd (List.drop_eq_nil_of_le (Nat.le_of_lt hcon))
        rw [List.length_take]
        omega
      · have := pyBatches_full_init k hk (l.drop k)
        rw [pyBatches_cons (l.drop k) k hk hd] at this
        exact this b hb
termination_by l.length
decreasing_by
  simp only [List.length_drop]
  have : 0 < l.length := List.length_pos.mpr hl
  omega

end BatchLemmas

/-- C8: compress_files_in_folder partitions the enumerated file list into
consecutive batches of files_per_batch files: their concatenation in order
is the original list (so every file is in exactly one batch, order
preserved), every batch is nonempty of size at most the batch size, every
batch before the last has exactly the batch size, a 5-element list with
batch size 2 gives batches of sizes 2, 2, 1, and an empty files_per_batch
string defaults the batch size to 1. -/
theorem compress_batches_partition :
    (∀ (l : List String) (k : Nat), 0 < k →
      (ArctykFileExec.pyBatches l k).flatten = l ∧
      (∀ b ∈ ArctykFileExec.pyBatches l k, b ≠ [] ∧ b.length ≤ k) ∧
      (∀ b ∈ (ArctykFileExec.pyBatches l k).dropLast, b.length = k)) ∧
    (∀ a b c d e : String,
      ArctykFileExec.pyBatches [a, b, c, d, e] 2 = [[a, b], [c, d], [e]]) ∧
    ArctykFileExec.files_per_batch_int "" = some 1 := by
  refine ⟨?_, ?_, rfl⟩
  · intro l k hk
    exact ⟨pyBatches_flatten k hk l, pyBatches_sizes k hk l,
      pyBatches_full_init k hk l⟩
  · intro a b c d e
    simp [ArctykFileExec.pyBatches, ArctykFileExec.pyRangeStep, List.range']

/-- Witness for C8: the concrete 5-file batch partition with batch size 2. -/
theorem compress_batches_partition_witness :
    (ArctykFileExec.pyBatches ["a", "b", "c", "d", "e"] 2).flatten =
      ["a", "b", "c", "d", "e"] ∧
    ArctykFileExec.pyBatches ["a", "b", "c", "d", "e"] 2 =
      [["a", "b"], ["c", "d"], ["e"]] :=
  ⟨(compress_batches_partition.1 ["a", "b", "c", "d", "e"] 2 (by decide)).1,
    compress_batches_partition.2.1 "a" "b" "c" "d" "e"⟩

namespace ArctykSqlExec

/-- One per-source-file response row of the Snowflake COPY INTO result
set, as unpacked by crt_copyinto_message. -/
structure CopyIntoRow where
  file : String
  status : String
  rows_parsed : Nat
  rows_loaded : Nat
  error_limit : Nat
  errors_seen : Nat
  first_error : String
  first_error_line : Nat
  first_error_character : Nat
  first_error_column_name : String
deriving DecidableEq, Repr

/-- One audit event as emitted through RepoExec.AuditLog: status code,
message, and database detail message. -/
structure AuditEvent where
  status_code : String
  message : String
  db_msg : String
deriving DecidableEq, Repr

/-- The per-row audit event of the crt_copyinto_message loop. -/
def copyintoRowEvent (r : CopyIntoRow) : AuditEvent :=
  ⟨"I", "Copy Into executed successfully",
    r.file ++ " " ++ r.status ++ " with " ++ Py.commaFmt r.rows_loaded
      ++ " rows loaded"⟩

/-- The audit event of the ValueError branch (a response set whose row does
not unpack into the ten per-file fields, as happens when no rows load). -/
def noRowsEvent : AuditEvent := ⟨"I", "CopyInto did not load any rows", ""⟩

/-- The try/except loop of crt_copyinto_message: rows are unpacked one by
one (a row that fails the ten-field unpacking is `none`), accumulating the
rows-loaded sum, the file count and the per-row audit events; the first
failing row raises ValueError, which the except branch turns into zeroed
totals plus the no-rows audit event. -/
def copyintoScan (s c : Nat) (evs : List AuditEvent) :
    List (Option CopyIntoRow) → Nat × Nat × List AuditEvent
  | [] => (s, c, evs)
  | none :: _ => (0, 0, evs ++ [noRowsEvent])
  | some r :: rest =>
    copyintoScan (s + r.rows_loaded) (c + 1) (evs ++ [copyintoRowEvent r]) rest

/-- crt_copyinto_message: consume the COPY INTO response rows, then emit
the single all-done summary audit event and return the final message.
(The repository cursor and the audit sink's opaque return value are
abstracted away; the returned string is the final_db_msg the source
returns.) -/
def crt_copyinto_message (results : List (Option CopyIntoRow)) :
    String × List AuditEvent :=
  let t := copyintoScan 0 0 [] results
  let files_word := if t.2.1 = 1 then "file" else "files"
  let final_db_msg := "A total of " ++ Py.commaFmt t.1
    ++ " rows were loaded from " ++ Nat.repr t.2.1 ++ " " ++ files_word
  (final_db_msg,
    t.2.2 ++ [⟨"I", "CopyInto phase of script is done", final_db_msg⟩])

/-- The summary audit event of crt_copyinto_message. -/
def isSummaryEvent (e : AuditEvent) : Bool :=
  e.message == "CopyInto phase of script is done"

end ArctykSqlExec

section CopyIntoLemmas

open ArctykSqlExec

lemma copyintoScan_ok (rows : List CopyIntoRow) :
    ∀ (s c : Nat) (evs : List AuditEvent),
      copyintoScan s c evs (rows.map some) =
        (s + (rows.map CopyIntoRow.rows_loaded).sum, c + rows.length,
          evs ++ rows.map copyintoRowEvent) := by
  induction rows with
  | nil => intro s c evs; simp [copyintoScan]
  | cons r t ih =>
    intro s c evs
    rw [List.map_cons]
    have step : copyintoScan s c evs (some r :: t.map some) =
        copyintoScan (s + r.rows_loaded) (c + 1) (evs ++ [copyintoRowEvent r])
          (t.map some) := rfl
    rw [step, ih]
    simp only [List.sum_cons, List.length_cons, List.append_assoc,
      List.singleton_append, List.map_cons, Prod.mk.injEq]
    refine ⟨by omega, by omega, ?_⟩
    trivial

lemma copyintoScan_bad (pre : List CopyIntoRow)
    (rest : List (Option CopyIntoRow)) :
    ∀ (s c : Nat) (evs : List AuditEvent),
      copyintoScan s c evs (pre.map some ++ none :: rest) =
        (0, 0, evs ++ pre.map copyintoRowEvent ++ [noRowsEvent]) := by
  induction pre with
  | nil => intro s c evs; simp [copyintoScan]
  | cons r t ih =>
    intro s c evs
    rw [List.map_cons, List.cons_append]
    have step : copyintoScan s c evs
        (some r :: (t.map some ++ none :: rest)) =
        copyintoScan (s + r.rows_loaded) (c + 1) (evs ++ [copyintoRowEvent r])
          (t.map some ++ none :: rest) := rfl
    rw [step, ih]
    simp [List.append_assoc]

lemma copyintoScan_no_summary (results : List (Option CopyIntoRow)) :
    ∀ (s c : Nat) (evs : List AuditEvent),
      (∀ e ∈ evs, isSummaryEvent e = false) →
      ∀ e ∈ (copyintoScan s c evs results).2.2, isSummaryEvent e = false := by
  induction results with
  | nil => intro s c evs h; exact h
  | cons o rest ih =>
    intro s c evs h e he
    cases o with
    | none =>
      simp only [copyintoScan] at he
      rcases List.mem_append.mp he with h1 | h1
      · exact h e h1
      · rw [List.mem_singleton] at h1
        subst h1
        decide
    | some r =>
      simp only [copyintoScan] at he
      refine ih _ _ _ ?_ e he
      intro e1 he1
      rcases List.mem_append.mp he1 with h1 | h1
      · exact h e1 h1
      · rw [List.mem_singleton] at h1
        subst h1
        rfl

end CopyIntoLemmas

/-- C7: crt_copyinto_message sums the rows-loaded field over every
well-formed response row and counts the files, and its final message
reports exactly that total and that count; a response set whose row fails
the ten-field unpacking (the zero-rows case) is reported with the distinct
no-rows message at Info severity and still yields the normal zero-total
final message; and on every input exactly one summary audit event is
emitted. -/
theorem crt_copyinto_message_spec :
    (∀ rows : List ArctykSqlExec.CopyIntoRow,
      (ArctykSqlExec.crt_copyinto_message (rows.map some)).1 =
        "A total of "
          ++ Py.commaFmt (rows.map ArctykSqlExec.CopyIntoRow.rows_loaded).sum
          ++ " rows were loaded from " ++ Nat.repr rows.length ++ " "
          ++ (if rows.length = 1 then "file" else "files")) ∧
    (∀ (pre : List ArctykSqlExec.CopyIntoRow)
        (rest : List (Option ArctykSqlExec.CopyIntoRow)),
      (ArctykSqlExec.crt_copyinto_message (pre.map some ++ none :: rest)).1 =
        "A total of 0 rows were loaded from 0 files" ∧
      ArctykSqlExec.noRowsEvent ∈
        (ArctykSqlExec.crt_copyinto_message (pre.map some ++ none :: rest)).2 ∧
      ArctykSqlExec.noRowsEvent.status_code = "I") ∧
    (∀ results : List (Option ArctykSqlExec.CopyIntoRow),
      ((ArctykSqlExec.crt_copyinto_message results).2).countP
        ArctykSqlExec.isSummaryEvent = 1) := by
  refine ⟨?_, ?_, ?_⟩
  · intro rows
    simp [ArctykSqlExec.crt_copyinto_message, copyintoScan_ok rows 0 0 []]
  · intro pre rest
    refine ⟨?_, ?_, rfl⟩
    · simp only [ArctykSqlExec.crt_copyinto_message,
        copyintoScan_bad pre rest 0 0 []]
      rfl
    · simp only [ArctykSqlExec.crt_copyinto_message,
        copyintoScan_bad pre rest 0 0 []]
      simp
  · intro results
    have hns := copyintoScan_no_summary results 0 0 [] (by intro e he; simp at he)
    simp only [ArctykSqlExec.crt_copyinto_message, List.countP_append]
    have h0 : (ArctykSqlExec.copyintoScan 0 0 [] results).2.2.countP
        ArctykSqlExec.isSummaryEvent = 0 := by
      rw [List.countP_eq_zero]
      intro e he
      simp [hns e he]
    rw [h0]
    rfl

namespace ArctykSqlExec

/-- The fixed keyword set of valid_put_options. -/
def valid_keywords : List String :=
  ["PARALLEL", "OVERWRITE", "AUTO_COMPRESS", "SOURCE_COMPRESSION"]

/-- The per-keyword permitted value sets of valid_put_options. -/
def valid_arguments (kw : String) : List String :=
  if kw = "PARALLEL" then ["@@"]
  else if kw = "OVERWRITE" then ["TRUE", "FALSE"]
  else if kw = "AUTO_COMPRESS" then ["TRUE", "FALSE"]
  else if kw = "SOURCE_COMPRESSION" then
    ["AUTO_DETECT", "GZIP", "BZ2", "BROTLI", "ZSTD", "DEFLATE",
      "RAW_DEFLATE", "NONE"]
  else []

/-- The rejection message of valid_put_options, naming the offending
keyword and the full valid keyword set. -/
def invalidKeywordMsg (kw : String) : String :=
  kw ++ " is not a valid keyword. Valid keywords are: "
    ++ Py.joinSep ", " valid_keywords

/-- Outcome of processing a single option element inside the loop body of
valid_put_options: an early rejection return, or acceptance of a keyword. -/
inductive PutStep where
  | reject (msg : String)
  | accept (kw : String)
deriving DecidableEq, Repr

/-- One iteration of the valid_put_options loop body over option element
`opt`: option.strip().split("=") must unpack into exactly a keyword and an
argument (otherwise Python raises ValueError, modelled as Except.error);
an unknown keyword or a keyword-specific value violation returns the
rejection message, and otherwise the keyword is accepted. -/
def putStep (opt : String) : Except String PutStep :=
  match Py.split (Py.strip opt) '=' with
  | [keyword, argument] =>
    let kws := Py.strip keyword
    if !valid_keywords.contains kws then
      Except.ok (PutStep.reject (invalidKeywordMsg kws))
    else if kws = "PARALLEL" then
      if !Py.isdigit (Py.strip argument) then
        Except.ok (PutStep.reject (invalidKeywordMsg kws))
      else Except.ok (PutStep.accept kws)
    else if kws = "OVERWRITE" then
      if !(valid_arguments kws).contains (Py.strip argument) then
        Except.ok (PutStep.reject (invalidKeywordMsg kws))
      else Except.ok (PutStep.accept kws)
    else if !(valid_arguments kws).contains (Py.strip argument) then
      Except.ok (PutStep.reject (invalidKeywordMsg kws))
    else Except.ok (PutStep.accept kws)
  | _ => Except.error "ValueError: option did not unpack into keyword, argument"

/-- keyword_count[kw] = keyword_count.get(kw, 0) + 1 on an
insertion-ordered association list (Python dicts preserve insertion
order). -/
def bumpCount (counts : List (String × Nat)) (kw : String) :
    List (String × Nat) :=
  if counts.any (fun p => p.1 == kw) then
    counts.map (fun p => if p.1 == kw then (p.1, p.2 + 1) else p)
  else counts ++ [(kw, 1)]

/-- The loop of valid_put_options over the option elements, carrying the
keyword counts and the loop variable `option` (whose last value leaks out
of the loop and becomes run_options).  After the loop, the first keyword
in insertion order with count above one - OVERWRITE excepted - is
rejected; otherwise the function returns accepted together with the last
option element with commas removed. -/
def putLoop : List String → List (String × Nat) → Option String →
    Except String (Bool × String)
  | [], counts, lastOpt =>
    match counts.find? (fun p => decide (p.2 > 1) && (p.1 != "OVERWRITE")) with
    | some p => Except.ok (false, p.1)
    | none =>
      match lastOpt with
      | some opt => Except.ok (true, Py.replaceChar opt ',' "")
      | none => Except.error "NameError: name option is not defined"
  | opt :: rest, counts, _ =>
    match putStep opt with
    | Except.error e => Except.error e
    | Except.ok (PutStep.reject msg) => Except.ok (false, msg)
    | Except.ok (PutStep.accept kw) => putLoop rest (bumpCount counts kw) (some opt)

/-- valid_put_options: upper-case and comma-split the options string (a
non-string options_string - modelled as `none` - makes .upper() raise,
and the except branch substitutes the default ["OVERWRITE=FALSE"]), then
run the validation loop.  Except.error models an uncaught exception. -/
def valid_put_options (options_string : Option String) :
    Except String (Bool × String) :=
  let options := match options_string with
    | some s => Py.split (Py.upper s) ','
    | none => ["OVERWRITE=FALSE"]
  putLoop options [] none

end ArctykSqlExec

/-- C1 (code bug): the four specified evaluations of valid_put_options.
"PARALLEL=4,OVERWRITE=TRUE" is accepted but the retained option string is
only the last comma-separated element "OVERWRITE=TRUE" (the loop variable
`option`, not the full options string, feeds run_options), "FOO=1" is
rejected naming FOO and the full keyword set, the repeated OVERWRITE is
accepted, and the repeated PARALLEL is rejected. -/
theorem valid_put_options_eval :
    ArctykSqlExec.valid_put_options (some "PARALLEL=4,OVERWRITE=TRUE") =
      Except.ok (true, "OVERWRITE=TRUE") ∧
    ArctykSqlExec.valid_put_options (some "FOO=1") =
      Except.ok (false,
        "FOO is not a valid keyword. Valid keywords are: PARALLEL, OVERWRITE, AUTO_COMPRESS, SOURCE_COMPRESSION") ∧
    ArctykSqlExec.valid_put_options (some "OVERWRITE=TRUE,OVERWRITE=FALSE") =
      Except.ok (true, "OVERWRITE=FALSE") ∧
    ArctykSqlExec.valid_put_options (some "PARALLEL=1,PARALLEL=2") =
      Except.ok (false, "PARALLEL") := by
  refine ⟨rfl, rfl, rfl, rfl⟩

section PutOptionLemmas

open ArctykSqlExec

/-- An option element whose strip-and-split on "=" does not produce exactly
two parts makes the loop body raise ValueError. -/
lemma putStep_error_of_bad_split (e : String)
    (h : (Py.split (Py.strip e) '=').length ≠ 2) :
    putStep e =
      Except.error "ValueError: option did not unpack into keyword, argument" := by
  unfold putStep
  rcases hl : Py.split (Py.strip e) '=' with _ | ⟨a, _ | ⟨b, _ | ⟨c, t⟩⟩⟩
  · rfl
  · rfl
  · exfalso
    apply h
    rw [hl]
    rfl
  · rfl

/-- If every element before `e` is accepted by the loop body and `e` raises,
the whole loop raises. -/
lemma putLoop_error_append (post : List String) (e m : String)
    (he : putStep e = Except.error m) :
    ∀ (pre : List String) (counts : List (String × Nat))
      (lastOpt : Option String),
      (∀ p ∈ pre, ∃ kw, putStep p = Except.ok (PutStep.accept kw)) →
      putLoop (pre ++ e :: post) counts lastOpt = Except.error m := by
  intro pre
  induction pre with
  | nil =>
    intro counts lastOpt _
    simp only [List.nil_append, putLoop, he]
  | cons p t ih =>
    intro counts lastOpt hacc
    obtain ⟨kw, hkw⟩ := hacc p (List.mem_cons_self p t)
    simp only [List.cons_append, putLoop, hkw]
    exact ih (bumpCount counts kw) (some p)
      (fun q hq => hacc q (List.mem_cons_of_mem p hq))

end PutOptionLemmas

/-- C10 counterexample: the options string "FOO=1,BAR" has a
comma-separated element ("BAR") without any "=", yet valid_put_options
returns a normal (rejected, message) pair - the first element FOO=1 is
rejected before the malformed element is ever unpacked - contradicting
the claim that every such string makes the function raise. -/
theorem valid_put_options_malformed_after_reject :
    ArctykSqlExec.valid_put_options (some "FOO=1,BAR") =
      Except.ok (false,
        "FOO is not a valid keyword. Valid keywords are: PARALLEL, OVERWRITE, AUTO_COMPRESS, SOURCE_COMPRESSION") :=
  rfl

/-- C10 amended: valid_put_options raises at the keyword/argument
unpacking step whenever the first offending element is malformed: if some
comma-separated element of the upper-cased options string does not split
into exactly two parts on "=" and every element before it passes
validation, the function ends in an uncaught ValueError instead of
returning a pair; and the OVERWRITE=FALSE default is applied exactly when
the argument is not a string (None), in which case the function returns
accepted. -/
theorem valid_put_options_unpack_raises :
    (∀ (s : String) (pre : List String) (e : String) (post : List String),
      Py.split (Py.upper s) ',' = pre ++ e :: post →
      (∀ p ∈ pre, ∃ kw,
        ArctykSqlExec.putStep p =
          Except.ok (ArctykSqlExec.PutStep.accept kw)) →
      (Py.split (Py.strip e) '=').length ≠ 2 →
      ArctykSqlExec.valid_put_options (some s) =
        Except.error
          "ValueError: option did not unpack into keyword, argument") ∧
    ArctykSqlExec.valid_put_options none =
      Except.ok (true, "OVERWRITE=FALSE") := by
  constructor
  · intro s pre e post hsplit hpre hbad
    have he := putStep_error_of_bad_split e hbad
    show ArctykSqlExec.putLoop (Py.split (Py.upper s) ',') [] none = _
    rw [hsplit]
    exact putLoop_error_append post e _ he pre [] none hpre
  · rfl

/-- Witness for C10: "OVERWRITE=TRUE,BAR" - a valid first element followed
by a malformed one - raises, and the non-string default is accepted. -/
theorem valid_put_options_unpack_raises_witness :
    ArctykSqlExec.valid_put_options (some "OVERWRITE=TRUE,BAR") =
      Except.error
        "ValueError: option did not unpack into keyword, argument" ∧
    ArctykSqlExec.valid_put_options none =
      Except.ok (true, "OVERWRITE=FALSE") :=
  ⟨valid_put_options_unpack_raises.1 "OVERWRITE=TRUE,BAR"
      ["OVERWRITE=TRUE"] "BAR" [] rfl
      (by
        intro p hp
        rw [List.mem_singleton] at hp
        subst hp
        exact ⟨"OVERWRITE", rfl⟩)
      (by decide),
    valid_put_options_unpack_raises.2⟩
